import Mathlib

set_option linter.unusedVariables false

/-! Shallow embedding of `hysteresis/base.py` (class `BaseHysteresis`) from the
`diff_hysteresis` repository.  The collaborators that live in repository files
not present under `src/` (`hysteresis/states.py`, `hysteresis/transform.py`,
`hysteresis/modes.py`) are modelled from the spec, each with a doc comment
saying so.  Tensors are modelled as rational-valued data lists carrying an
explicit shape; machine floats are modelled by exact rationals. -/

/-- Modelled from the spec: the mode enumeration provided by
`hysteresis/modes.py` (file missing from `src/`): one of FITTING, REGRESSION,
NEXT, FUTURE, CURRENT; the default mode of a fresh model is FITTING, and mode
changes are caller-driven assignments. -/
inductive Mode
  | FITTING
  | REGRESSION
  | NEXT
  | FUTURE
  | CURRENT
deriving DecidableEq, Repr

/-- Exceptions raised by `BaseHysteresis` (`hysteresis/base.py`).  Python
raises `HysteresisError` (constructors `he_*`), `ValueError` (`ve_*`),
`RuntimeError` (`rt_*`) or the builtin attribute/index errors; each
constructor stands for one raise site, identified by its message:
* `he_domain` — "Argument values are not inside valid domain ... for this model"
* `he_mustSpecifyField` — "must specify field when not using CURRENT mode"
* `he_noCurrentState` — "no history data to determine current state ..."
* `he_fittingShape` — "history datasets must match shape for fitting"
* `he_fittingMismatch` — "must do regression on history fields if in FITTING mode"
* `ve_historyH1D` — "history_h must be a 1D tensor"
* `ve_historyM1D` — "history_m must be a 1D tensor" (unreachable, see `set_history`)
* `ve_future1D` — "input must be 1D for FUTURE mode"
* `rt_trainEqual` — "train h and train m cannot be equal"
* `rt_noFittingData` — "no training.py data supplied to do fitting ..."
* `attrError`, `idxError` — Python builtin AttributeError / IndexError. -/
inductive HystError
  | he_domain
  | he_mustSpecifyField
  | he_noCurrentState
  | he_fittingShape
  | he_fittingMismatch
  | ve_historyH1D
  | ve_historyM1D
  | ve_future1D
  | rt_trainEqual
  | rt_noFittingData
  | attrError
  | idxError
deriving DecidableEq, Repr

/-- A torch tensor: an explicit shape together with its (flattened) data.
All values are modelled as exact rationals. -/
structure PyTensor where
  shape : List Nat
  data : List ℚ
deriving DecidableEq, Repr

/-- One point of the Preisach-plane mesh: an "up" threshold `alpha` and a
"down" threshold `beta` with `alpha ≥ beta` (invariant of the external mesh
generator, not enforced here). -/
structure MeshPoint where
  alpha : ℚ
  beta : ℚ
deriving DecidableEq, Repr

/-- Modelled from the spec: a rational logistic-style surrogate for the
sigmoid smooth step used by `hysteresis/states.py` (file missing from
`src/`).  Maps ℚ into (0,1), is monotone and satisfies `softStep 0 = 1/2`.
No claim settled below depends on the precise shape of the smooth step, only
on the states being computed per history step and mesh point. -/
def softStep (x : ℚ) : ℚ :=
  1 / 2 + x / (2 * (1 + |x|))

/-- Modelled from the spec: the soft initial decision of a hysteron state at
the first field value (state ≈ σ((h − threshold)/temperature)); the threshold
of mesh point `p` is taken as the midpoint of its `alpha`/`beta` thresholds. -/
def initState (temp : ℚ) (h : ℚ) (p : MeshPoint) : ℚ :=
  softStep ((h - (p.alpha + p.beta) / 2) / temp)

/-- Modelled from the spec: the differentiable relay update of one hysteron:
a rising field past `alpha` forces the hysteron up, a falling field past
`beta` forces it down, otherwise the state is retained, blended softly so
that the zero-temperature limit reproduces the hard Preisach relay. -/
def stepState (temp : ℚ) (hprev hnew : ℚ) (p : MeshPoint) (sOld : ℚ) : ℚ :=
  let sUp := if hprev < hnew then softStep ((hnew - p.alpha) / temp) else 0
  let sDown := if hnew < hprev then softStep ((p.beta - hnew) / temp) else 0
  sOld * (1 - sDown) * (1 - sUp) + sUp

/-- Modelled from the spec: the state recursion of `get_states` continued
from a given previous field and previous per-mesh-point state vector; one row
per remaining history entry. -/
def statesFrom (temp : ℚ) (mesh : List MeshPoint) :
    ℚ → List ℚ → List ℚ → List (List ℚ)
  | _, _, [] => []
  | pf, ps, h :: rest =>
      let s := (mesh.zip ps).map (fun q => stepState temp pf h q.1 q.2)
      s :: statesFrom temp mesh h s rest

/-- Modelled from the spec: `get_states` of `hysteresis/states.py` (file
missing from `src/`).  For a normalized field history and a mesh of hysteron
thresholds it returns one row per history step with one state per mesh point;
when `current_state`/`current_field` are supplied the recursion continues
from that point instead of starting from the soft initial decision. -/
def get_states (history_h : List ℚ) (mesh : List MeshPoint) (temp : ℚ)
    (current_state : Option (List ℚ)) (current_field : Option ℚ) :
    List (List ℚ) :=
  match current_state, current_field with
  | some s, some f => statesFrom temp mesh f s history_h
  | _, _ =>
      match history_h with
      | [] => []
      | h0 :: rest =>
          let s0 := mesh.map (initState temp h0)
          s0 :: statesFrom temp mesh h0 s0 rest

/-- Modelled from the spec: `predict_batched_state` of `hysteresis/states.py`
(file missing from `src/`).  Each candidate field value is evaluated
independently as a single-step continuation from the same shared current
state/field (saturation-style initial decision when no current state). -/
def predict_batched_state (h : List ℚ) (mesh : List MeshPoint) (temp : ℚ)
    (current_state : Option (List ℚ)) (current_field : Option ℚ) :
    List (List ℚ) :=
  h.map (fun hi =>
    match current_state, current_field with
    | some s, some f => (mesh.zip s).map (fun q => stepState temp f hi q.1 q.2)
    | _, _ => mesh.map (initState temp hi))

/-- Modelled from the spec: `HysteresisTransform` of `hysteresis/transform.py`
(file missing from `src/`), reduced to the data the claims touch: the valid
input domain.  The field branch is modelled as the min-max affine
normalization onto the unit interval; the magnetization branch (polynomial
detrending, out-of-scope collaborator per the spec) is modelled as the
identity — no claim below depends on the normalized magnetization values,
only on their shape and presence. -/
structure HysteresisTransform where
  domainMin : ℚ
  domainMax : ℚ
deriving DecidableEq, Repr

/-- Modelled from the spec: constructing a transform: a fixed domain is used
when supplied, otherwise the domain is taken from the training-field data;
with no data the normalized unit domain is used. -/
def HysteresisTransform.make (train_h : Option (List ℚ))
    (fixed_domain : Option (ℚ × ℚ)) : HysteresisTransform :=
  match fixed_domain with
  | some d => { domainMin := d.1, domainMax := d.2 }
  | none =>
      match train_h with
      | some (v :: vs) =>
          { domainMin := (v :: vs).foldl min v, domainMax := (v :: vs).foldl max v }
      | _ => { domainMin := 0, domainMax := 1 }

/-- Modelled from the spec: field normalization (affine onto the unit
interval).  A degenerate domain would divide by zero; rational division by
zero yields 0, and no claim below exercises a degenerate domain. -/
def HysteresisTransform.transform_h (t : HysteresisTransform) (h : List ℚ) :
    List ℚ :=
  h.map (fun v => (v - t.domainMin) / (t.domainMax - t.domainMin))

/-- Modelled from the spec: the inverse of `transform_h`. -/
def HysteresisTransform.untransform_h (t : HysteresisTransform) (h : List ℚ) :
    List ℚ :=
  h.map (fun v => v * (t.domainMax - t.domainMin) + t.domainMin)

/-- Modelled from the spec: the magnetization branch of the transform,
shape-preserving; see `HysteresisTransform`. -/
def HysteresisTransform.transform_m (t : HysteresisTransform) (m : PyTensor) :
    PyTensor := m

/-- Modelled from the spec: the inverse of the magnetization branch. -/
def HysteresisTransform.untransform_m (t : HysteresisTransform) (m : List ℚ) :
    List ℚ := m

/-- Modelled from the spec: `transformer.domain`, the valid input interval. -/
def HysteresisTransform.domain (t : HysteresisTransform) : ℚ × ℚ :=
  (t.domainMin, t.domainMax)

/-- The state of a `BaseHysteresis` instance (`hysteresis/base.py`).  The
registered buffers `_history_h` (normalized field history), `_history_m`
(normalized magnetization history, kept with its tensor shape) and `_states`
(cached state matrix) are optional: absent until set, deletable by
`reset_history`.  The constrained parameter accessors (`hysterion_density`,
`offset`, `scale`, `slope`) are stored directly as their constrained values
— the raw/constrained gpytorch machinery is an out-of-scope collaborator per
the spec.  The polynomial-fit settings only feed the out-of-scope transform
and are omitted. -/
structure BaseHysteresis where
  transformer : HysteresisTransform
  trainable : Bool
  fixed_scaling : Bool
  temp : ℚ
  mesh_points : List MeshPoint
  hysterion_density : List ℚ
  offset : ℚ
  scale : ℚ
  slope : ℚ
  _mode : Mode
  _history_h : Option (List ℚ)
  _history_m : Option PyTensor
  _states : Option (List (List ℚ))
  _fixed_domain : Option (ℚ × ℚ)
deriving DecidableEq, Repr

/-- Modelled from the spec: the `mode` property of `ModeModule`
(`hysteresis/modes.py`, missing from `src/`) reads the single canonical mode
field. -/
def BaseHysteresis.mode (m : BaseHysteresis) : Mode := m._mode

/-- `valid_domain` property: `self.transformer.domain` (base.py:364-366). -/
def BaseHysteresis.valid_domain (m : BaseHysteresis) : ℚ × ℚ :=
  m.transformer.domain

/-- `n_mesh_points` property (base.py:368-370). -/
def BaseHysteresis.n_mesh_points (m : BaseHysteresis) : Nat :=
  m.mesh_points.length

/-- `torch.allclose` on equal-length 1-D data with torch defaults
rtol = 1e-5, atol = 1e-8: every element satisfies
`|a - b| ≤ atol + rtol * |b|`.  (On non-broadcastable shapes torch raises;
the claims below only exercise equal lengths, where this is exact.) -/
def torch_allclose (a b : List ℚ) : Bool :=
  a.length = b.length &&
    (a.zip b).all (fun p => |p.1 - p.2| ≤ 1 / 100000000 + (1 / 100000) * |p.2|)

/-- `_check_inside_valid_domain` (base.py:333-342): raises a
`HysteresisError` when any value lies below `domain_min - 1e-4` or above
`domain_max + 1e-4`. -/
def BaseHysteresis._check_inside_valid_domain (model : BaseHysteresis)
    (values : List ℚ) : Except HystError Unit :=
  if values.any (fun v => v < model.valid_domain.1 - 1 / 10000) ||
      values.any (fun v => v > model.valid_domain.2 + 1 / 10000) then
    Except.error HystError.he_domain
  else
    Except.ok ()

/-- `_predict_normalized_magnetization` (base.py:230-234): the density-
weighted average of the hysteron states, normalized by the total density,
then affinely transformed (`scale * m + offset + h * slope`); the reshape to
`h.shape` is the elementwise pairing with `h`. -/
def BaseHysteresis._predict_normalized_magnetization (model : BaseHysteresis)
    (states : List (List ℚ)) (h : List ℚ) : List ℚ :=
  let m := states.map (fun row =>
    (List.zipWith (fun a b => a * b) model.hysterion_density row).sum /
      model.hysterion_density.sum)
  List.zipWith (fun mi hi => model.scale * mi + model.offset + hi * model.slope)
    m h

/-- Lines 250-256 of `forward`: the current state/field pair when history is
available (`_history_h[-1]` / `_states[-1]`), `none` when the `history_h`
property is absent; indexing an empty buffer or a missing `_states` buffer is
a Python builtin error. -/
def BaseHysteresis.currentStateField (model : BaseHysteresis) :
    Except HystError (Option (List ℚ × ℚ)) :=
  match model._history_h with
  | none => Except.ok none
  | some hh =>
      match model._states with
      | none => Except.error HystError.attrError
      | some st =>
          match st.getLast?, hh.getLast? with
          | some s, some f => Except.ok (some (s, f))
          | _, _ => Except.error HystError.idxError

/-- Lines 242-321 of `forward`: input validation followed by the
mode-dependent computation of the state matrix and the normalized field
values that feed the magnetization prediction. -/
def BaseHysteresis.forward_dispatch (model : BaseHysteresis)
    (x : Option PyTensor) : Except HystError (List (List ℚ) × List ℚ) :=
  let inputCheck : Except HystError Unit :=
    match x with
    | some xt => model._check_inside_valid_domain xt.data
    | none =>
        if model._mode ≠ Mode.CURRENT then
          Except.error HystError.he_mustSpecifyField
        else
          Except.ok ()
  match inputCheck with
  | Except.error e => Except.error e
  | Except.ok _ =>
      match model.currentStateField with
      | Except.error e => Except.error e
      | Except.ok cur =>
          match model._mode with
          | Mode.FITTING =>
              match model._history_h with
              | none => Except.error HystError.rt_noFittingData
              | some hh =>
                  match model._history_m with
                  | none => Except.error HystError.attrError
                  | some hm =>
                      if [hh.length] ≠ hm.shape then
                        Except.error HystError.he_fittingShape
                      else
                        match x with
                        | some xt =>
                            if ¬ torch_allclose xt.data
                                (model.transformer.untransform_h hh) then
                              Except.error HystError.he_fittingMismatch
                            else
                              match model._states with
                              | some st => Except.ok (st, hh)
                              | none => Except.error HystError.attrError
                        | none => Except.error HystError.he_mustSpecifyField
          | Mode.REGRESSION =>
              match x with
              | some xt =>
                  let norm_h := model.transformer.transform_h xt.data
                  Except.ok
                    (get_states norm_h model.mesh_points model.temp none none,
                      norm_h)
              | none => Except.error HystError.he_mustSpecifyField
          | Mode.CURRENT =>
              match cur with
              | some sf => Except.ok ([sf.1], [sf.2])
              | none => Except.error HystError.he_noCurrentState
          | Mode.FUTURE =>
              match x with
              | some xt =>
                  if xt.shape.length ≠ 1 then
                    Except.error HystError.ve_future1D
                  else
                    let norm_h := model.transformer.transform_h xt.data
                    Except.ok
                      (get_states norm_h model.mesh_points model.temp
                        (cur.map Prod.fst) (cur.map Prod.snd), norm_h)
              | none => Except.error HystError.he_mustSpecifyField
          | Mode.NEXT =>
              match x with
              | some xt =>
                  let norm_h := model.transformer.transform_h xt.data
                  Except.ok
                    (predict_batched_state norm_h model.mesh_points model.temp
                      (cur.map Prod.fst) (cur.map Prod.snd), norm_h)
              | none => Except.error HystError.he_mustSpecifyField

/-- `forward` (base.py:242-331): mode dispatch followed by the shared
magnetization prediction, optionally mapped back to real units. -/
def BaseHysteresis.forward (model : BaseHysteresis) (x : Option PyTensor)
    (return_real : Bool) : Except HystError (List ℚ) :=
  match model.forward_dispatch x with
  | Except.error e => Except.error e
  | Except.ok sn =>
      if return_real then
        Except.ok (model.transformer.untransform_m
          (model._predict_normalized_magnetization sn.1 sn.2))
      else
        Except.ok (model._predict_normalized_magnetization sn.1 sn.2)

/-- `_update_h_history_buffer` (base.py:209-214): stores the normalized field
history and recomputes the full state matrix from it. -/
def BaseHysteresis._update_h_history_buffer (model : BaseHysteresis)
    (norm_history_h : List ℚ) : BaseHysteresis :=
  { model with
    _history_h := some norm_history_h
    _states := some (get_states norm_history_h model.mesh_points model.temp
      none none) }

/-- `apply_field` (base.py:216-228): domain-check the new values, append
their normalized form to the existing normalized history (create it when
absent) and recompute the state matrix.  Mutating operations return the
object state after the call together with the raised exception, if any (on a
Python exception the mutations made before the raise persist). -/
def BaseHysteresis.apply_field (model : BaseHysteresis) (h : PyTensor) :
    BaseHysteresis × Option HystError :=
  match model._check_inside_valid_domain h.data with
  | Except.error e => (model, some e)
  | Except.ok _ =>
      let newHist :=
        match model._history_h with
        | some hh => hh ++ model.transformer.transform_h h.data
        | none => model.transformer.transform_h h.data
      (model._update_h_history_buffer newHist, none)

/-- Lines 191-197 of `set_history`: the validations that run when a
`history_m` tensor is supplied.  The 1-D check re-tests `history_h.shape` —
exactly as base.py:193 does, although its message names `history_m` — and
`torch.equal` compares shape and values. -/
def BaseHysteresis.set_history_m_check (history_h : PyTensor)
    (history_m : Option PyTensor) : Option HystError :=
  match history_m with
  | none => none
  | some m =>
      if history_h.shape.length ≠ 1 then
        some HystError.ve_historyM1D
      else if history_h.shape = m.shape && history_h.data = m.data then
        some HystError.rt_trainEqual
      else
        none

/-- `set_history` (base.py:175-207).  The transformer is rebuilt from the new
data first (trainable, non-fixed-scaling models only), then the shape and
degeneracy validations run (`set_history_m_check`), then the normalized
history and recomputed state matrix are stored; a missing `history_m` is
derived by temporarily switching to REGRESSION, running `forward` on the
(raw) history fields and restoring the prior mode. -/
def BaseHysteresis.set_history (model : BaseHysteresis) (history_h : PyTensor)
    (history_m : Option PyTensor) : BaseHysteresis × Option HystError :=
  let model :=
    if model.trainable && !model.fixed_scaling then
      { model with
        transformer := HysteresisTransform.make (some history_h.data)
          model._fixed_domain }
    else
      model
  if history_h.shape.length ≠ 1 then
    (model, some HystError.ve_historyH1D)
  else
    match BaseHysteresis.set_history_m_check history_h history_m with
    | some e => (model, some e)
    | none =>
        let nh := model.transformer.transform_h history_h.data
        let model := model._update_h_history_buffer nh
        match history_m with
        | some m =>
            ({ model with _history_m := some (model.transformer.transform_m m) },
              none)
        | none =>
            let old_mode := model._mode
            let model := { model with _mode := Mode.REGRESSION }
            match model.forward (some ⟨[history_h.data.length], history_h.data⟩)
                false with
            | Except.error e => (model, some e)
            | Except.ok pred =>
                let model := { model with _mode := old_mode }
                ({ model with _history_m := some ⟨[pred.length], pred⟩ }, none)

/-- `reset_history` (base.py:344-346): `del self._history_h` followed by
`del self._history_m`; `_states` is not touched.  Deleting an absent buffer
is a Python AttributeError, and a first successful delete persists even when
the second one raises. -/
def BaseHysteresis.reset_history (model : BaseHysteresis) :
    BaseHysteresis × Option HystError :=
  match model._history_h with
  | none => (model, some HystError.attrError)
  | some _ =>
      let model := { model with _history_h := none }
      match model._history_m with
      | none => (model, some HystError.attrError)
      | some _ => ({ model with _history_m := none }, none)

/-- The state of a freshly constructed model (base.py:110-173) before any
training data is applied: default FITTING mode, no history buffers, raw-zero
parameters through their constraint maps (density 1/2 per mesh point via the
unit-interval constraint, offset 0, scale 1, slope 1 as set explicitly). -/
def BaseHysteresis.mk0 (mesh_points : List MeshPoint) (temp : ℚ)
    (trainable fixed_scaling : Bool) (fixed_domain : Option (ℚ × ℚ)) :
    BaseHysteresis :=
  { transformer := HysteresisTransform.make none fixed_domain
    trainable := trainable
    fixed_scaling := fixed_scaling
    temp := temp
    mesh_points := mesh_points
    hysterion_density := mesh_points.map (fun _ => (1 : ℚ) / 2)
    offset := 0
    scale := 1
    slope := 1
    _mode := Mode.FITTING
    _history_h := none
    _history_m := none
    _states := none
    _fixed_domain := fixed_domain }

/-- `__init__` (base.py:110-173): the transformer is created from the
training fields (or fixed domain), then `set_history` runs when training
fields are supplied. -/
def BaseHysteresis.init (train_h : Option PyTensor) (train_m : Option PyTensor)
    (mesh_points : List MeshPoint) (temp : ℚ) (trainable fixed_scaling : Bool)
    (fixed_domain : Option (ℚ × ℚ)) : BaseHysteresis × Option HystError :=
  let base :=
    { BaseHysteresis.mk0 mesh_points temp trainable fixed_scaling fixed_domain
      with
      transformer := HysteresisTransform.make (train_h.map PyTensor.data)
        fixed_domain }
  match train_h with
  | some h => base.set_history h train_m
  | none => (base, none)

/-! ### Concrete instances used by witnesses and counterexamples -/

/-- A two-point Preisach mesh used by the concrete instances below. -/
def meshW : List MeshPoint := [⟨3 / 4, 1 / 4⟩, ⟨1 / 2, 1 / 2⟩]

/-- A freshly constructed trainable model (no history). -/
def modelW0 : BaseHysteresis := BaseHysteresis.mk0 meshW (1 / 100) true false none

/-- `modelW0` after `set_history` with both field and magnetization data. -/
def modelHist : BaseHysteresis :=
  (modelW0.set_history ⟨[2], [0, 1]⟩ (some ⟨[2], [0, 1 / 2]⟩)).1

/-- `modelW0` switched to FUTURE mode (no history). -/
def modelFUT : BaseHysteresis := { modelW0 with _mode := Mode.FUTURE }

/-- `modelW0` switched to REGRESSION mode. -/
def modelREG : BaseHysteresis := { modelW0 with _mode := Mode.REGRESSION }

/-- A freshly constructed non-trainable model (no history); its transformer
is never rebuilt by `set_history`. -/
def modelNT : BaseHysteresis := BaseHysteresis.mk0 meshW (1 / 100) false false none

/-- `modelW0` after a single `apply_field` call. -/
def modelAF : BaseHysteresis := (modelW0.apply_field ⟨[1], [1 / 2]⟩).1

/-- `modelW0` after `set_history` with field data only. -/
def modelSH : BaseHysteresis := (modelW0.set_history ⟨[2], [0, 1]⟩ none).1

/-- The normalized history stored inside `modelHist`. -/
def histN : List ℚ := [0, 1]

/-- The cached state matrix of `modelHist`. -/
def statesHist : List (List ℚ) := get_states histN meshW (1 / 100) none none

/-- A concrete REGRESSION-mode input. -/
def xC2 : PyTensor := ⟨[2], [1 / 4, 3 / 4]⟩

/-- The normalized field values `modelREG` derives from `xC2`. -/
def normC2 : List ℚ := modelREG.transformer.transform_h xC2.data

/-- The state matrix `modelREG` computes for `xC2`. -/
def statesC2 : List (List ℚ) :=
  get_states normC2 modelREG.mesh_points modelREG.temp none none

/-- The normalized magnetization `modelREG` returns for `xC2`. -/
def rC2 : List ℚ := modelREG._predict_normalized_magnetization statesC2 normC2

/-- The 1-D field history of the C8 failing input. -/
def hC8 : PyTensor := ⟨[2], [0, 1]⟩

/-- The 2-D magnetization history of the C8 failing input (shape `[2, 1]`). -/
def mC8 : PyTensor := ⟨[2, 1], [1 / 2, 7 / 10]⟩

/-- The cache invariant of C4: the model stores a normalized field history
and its state matrix is exactly the full recomputation from that history,
with one row per history entry and one column per mesh point. -/
def statesFullyRecomputed (m : BaseHysteresis) : Prop :=
  ∃ nh, m._history_h = some nh ∧
    m._states = some (get_states nh m.mesh_points m.temp none none) ∧
    (get_states nh m.mesh_points m.temp none none).length = nh.length ∧
    ∀ row ∈ get_states nh m.mesh_points m.temp none none,
      row.length = m.mesh_points.length

/-! ### Helper lemmas -/

theorem statesFrom_length (temp : ℚ) (mesh : List MeshPoint) (hs : List ℚ) :
    ∀ pf ps, (statesFrom temp mesh pf ps hs).length = hs.length := by
  induction hs with
  | nil => intro pf ps; rfl
  | cons h rest ih => intro pf ps; simp only [statesFrom, List.length_cons, ih]

theorem get_states_length (h : List ℚ) (mesh : List MeshPoint) (temp : ℚ) :
    (get_states h mesh temp none none).length = h.length := by
  cases h with
  | nil => rfl
  | cons h0 rest =>
      simp only [get_states, List.length_cons, statesFrom_length]

theorem statesFrom_row_length (temp : ℚ) (mesh : List MeshPoint) (hs : List ℚ) :
    ∀ pf ps, ps.length = mesh.length →
      ∀ row ∈ statesFrom temp mesh pf ps hs, row.length = mesh.length := by
  induction hs with
  | nil => intro pf ps hlen row hrow; simp [statesFrom] at hrow
  | cons h rest ih =>
      intro pf ps hlen row hrow
      simp only [statesFrom, List.mem_cons] at hrow
      rcases hrow with rfl | hrow
      · simp [List.length_zip, hlen]
      · exact ih h _ (by simp [List.length_zip, hlen]) row hrow

theorem get_states_row_length (h : List ℚ) (mesh : List MeshPoint) (temp : ℚ) :
    ∀ row ∈ get_states h mesh temp none none, row.length = mesh.length := by
  cases h with
  | nil => intro row hrow; simp [get_states] at hrow
  | cons h0 rest =>
      intro row hrow
      simp only [get_states, List.mem_cons] at hrow
      rcases hrow with rfl | hrow
      · simp
      · exact statesFrom_row_length temp mesh rest h0 _ (by simp) row hrow

theorem list_sum_eq_range_getD (l : List ℚ) :
    l.sum = ∑ j ∈ Finset.range l.length, l.getD j 0 := by
  induction l with
  | nil => simp
  | cons x xs ih =>
      simp only [List.sum_cons, List.length_cons, Finset.sum_range_succ',
        List.getD_cons_succ, List.getD_cons_zero]
      rw [← ih]; ring

theorem zipWith_mul_sum_eq (d : List ℚ) :
    ∀ r : List ℚ, r.length = d.length →
      (List.zipWith (fun a b => a * b) d r).sum =
        ∑ j ∈ Finset.range d.length, d.getD j 0 * r.getD j 0 := by
  induction d with
  | nil => intro r hr; simp
  | cons a d' ih =>
      intro r hr
      cases r with
      | nil => simp at hr
      | cons b r' =>
          simp only [List.zipWith_cons_cons, List.sum_cons, List.length_cons,
            Finset.sum_range_succ', List.getD_cons_succ, List.getD_cons_zero]
          rw [ih r' (by simpa using hr)]; ring

theorem mem_zip_self {a : List ℚ} {p : ℚ × ℚ} (hp : p ∈ a.zip a) : p.1 = p.2 := by
  induction a with
  | nil => simp [List.zip] at hp
  | cons x xs ih =>
      simp only [List.zip_cons_cons, List.mem_cons] at hp
      rcases hp with rfl | hp
      · rfl
      · exact ih hp

theorem torch_allclose_refl (a : List ℚ) : torch_allclose a a = true := by
  simp only [torch_allclose, Bool.and_eq_true, decide_eq_true_eq,
    List.all_eq_true]
  refine ⟨trivial, fun p hp => ?_⟩
  rw [mem_zip_self hp]
  simp only [sub_self, abs_zero, decide_eq_true_eq]
  positivity

/-! ### Claim theorems -/

/-- C10: for every mode other than CURRENT, calling `forward` with no input
tensor raises the hysteresis error "must specify field when not using CURRENT
mode" before any state computation or history access — the error comes back
for every model state, whatever its history buffers hold; only CURRENT mode
accepts a missing input (it never raises this error). -/
theorem c10_missing_input (model : BaseHysteresis) (rr : Bool) :
    (model._mode ≠ Mode.CURRENT →
      model.forward none rr = Except.error HystError.he_mustSpecifyField) ∧
    (model._mode = Mode.CURRENT →
      model.forward none rr ≠ Except.error HystError.he_mustSpecifyField) := by
  constructor
  · intro hne
    simp [BaseHysteresis.forward, BaseHysteresis.forward_dispatch, hne]
  · intro heq
    simp only [BaseHysteresis.forward, BaseHysteresis.forward_dispatch, heq]
    cases hh : model._history_h with
    | none =>
        simp [BaseHysteresis.currentStateField, hh]
    | some hh' =>
        cases hst : model._states with
        | none => simp [BaseHysteresis.currentStateField, hh, hst]
        | some st =>
            cases hl : st.getLast? with
            | none => simp [BaseHysteresis.currentStateField, hh, hst, hl]
            | some s =>
                cases hl2 : hh'.getLast? with
                | none => simp [BaseHysteresis.currentStateField, hh, hst, hl, hl2]
                | some f =>
                    cases rr <;>
                      simp [BaseHysteresis.currentStateField, hh, hst, hl, hl2]

/-- Witness for C10 at two concrete models: a fresh FITTING-mode model and
the same model switched to CURRENT mode. -/
theorem c10_missing_input_witness :
    modelW0.forward none false = Except.error HystError.he_mustSpecifyField ∧
    ({ modelW0 with _mode := Mode.CURRENT }).forward none false ≠
      Except.error HystError.he_mustSpecifyField :=
  ⟨(c10_missing_input modelW0 false).1 (by with_unfolding_all decide),
    (c10_missing_input { modelW0 with _mode := Mode.CURRENT } false).2 rfl⟩

/-- C3: for every input tensor handed to `forward` or `apply_field`, the
domain error is raised if and only if some element lies below
`domain_min - 1e-4` or above `domain_max + 1e-4`; in particular (for a
non-degenerate domain, `domain_min ≤ domain_max`) a value at
`domain_max + 1.0` always raises and a value at `domain_max - 1e-5` never
does. -/
theorem c3_domain_check (model : BaseHysteresis)
    (hd : model.valid_domain.1 ≤ model.valid_domain.2) :
    (∀ values : List ℚ,
        (model._check_inside_valid_domain values = Except.ok () ↔
          ∀ v ∈ values,
            model.valid_domain.1 - 1 / 10000 ≤ v ∧
              v ≤ model.valid_domain.2 + 1 / 10000)) ∧
    (∀ (values : List ℚ) (sh : List Nat) (rr : Bool),
        model._check_inside_valid_domain values ≠ Except.ok () →
          model.forward (some ⟨sh, values⟩) rr =
              Except.error HystError.he_domain ∧
            (model.apply_field ⟨sh, values⟩).2 = some HystError.he_domain) ∧
    model._check_inside_valid_domain [model.valid_domain.2 + 1] ≠
      Except.ok () ∧
    model._check_inside_valid_domain [model.valid_domain.2 - 1 / 100000] =
      Except.ok () := by
  have hiff : ∀ values : List ℚ,
      (model._check_inside_valid_domain values = Except.ok () ↔
        ∀ v ∈ values,
          model.valid_domain.1 - 1 / 10000 ≤ v ∧
            v ≤ model.valid_domain.2 + 1 / 10000) := by
    intro values
    unfold BaseHysteresis._check_inside_valid_domain
    split
    · rename_i hcond
      simp only [Bool.or_eq_true, List.any_eq_true, decide_eq_true_eq] at hcond
      refine iff_of_false (by simp) ?_
      intro hall
      rcases hcond with ⟨v, hv, hlt⟩ | ⟨v, hv, hgt⟩
      · exact absurd hlt (not_lt.mpr (hall v hv).1)
      · exact absurd hgt (not_lt.mpr (hall v hv).2)
    · rename_i hcond
      rw [Bool.not_eq_true] at hcond
      simp only [Bool.or_eq_false_iff, List.any_eq_false, decide_eq_true_eq]
        at hcond
      exact iff_of_true rfl fun v hv =>
        ⟨not_lt.mp (hcond.1 v hv), not_lt.mp (hcond.2 v hv)⟩
  have hdi : ∀ values : List ℚ,
      model._check_inside_valid_domain values = Except.ok () ∨
        model._check_inside_valid_domain values =
          Except.error HystError.he_domain := by
    intro values
    unfold BaseHysteresis._check_inside_valid_domain
    split
    · exact Or.inr rfl
    · exact Or.inl rfl
  refine ⟨hiff, ?_, ?_, ?_⟩
  · intro values sh rr hne
    have herr : model._check_inside_valid_domain values =
        Except.error HystError.he_domain := by
      rcases hdi values with hok | herr
      · exact absurd hok hne
      · exact herr
    constructor
    · simp [BaseHysteresis.forward, BaseHysteresis.forward_dispatch, herr]
    · simp [BaseHysteresis.apply_field, herr]
  · intro hok
    have := (hiff _).mp hok (model.valid_domain.2 + 1) (by simp)
    linarith [this.2]
  · refine (hiff _).mpr ?_
    intro v hv
    simp only [List.mem_singleton] at hv
    subst hv
    constructor <;> linarith

/-- Witness for C3 at a concrete model with domain `[0, 1]`: the two concrete
boundary values, plus a `forward` and `apply_field` rejection at the value 5. -/
theorem c3_domain_check_witness :
    (modelW0._check_inside_valid_domain [modelW0.valid_domain.2 + 1] ≠
        Except.ok ()) ∧
      modelW0._check_inside_valid_domain
          [modelW0.valid_domain.2 - 1 / 100000] = Except.ok () ∧
      modelW0.forward (some ⟨[1], [5]⟩) false =
          Except.error HystError.he_domain ∧
      (modelW0.apply_field ⟨[1], [5]⟩).2 = some HystError.he_domain := by
  have hd0 : modelW0.valid_domain.1 ≤ modelW0.valid_domain.2 := by
    rw [show modelW0.valid_domain = ((0 : ℚ), (1 : ℚ)) from
      by with_unfolding_all rfl]
    norm_num
  have hne5 : modelW0._check_inside_valid_domain [5] ≠ Except.ok () := by
    rw [show modelW0._check_inside_valid_domain [5] =
        Except.error HystError.he_domain from by with_unfolding_all rfl]
    simp
  exact ⟨(c3_domain_check modelW0 hd0).2.2.1,
    (c3_domain_check modelW0 hd0).2.2.2,
    ((c3_domain_check modelW0 hd0).2.1 [5] [1] false hne5).1,
    ((c3_domain_check modelW0 hd0).2.1 [5] [1] false hne5).2⟩

/-- C7: for every model and every pair of tensors `h`, `m` with `h` exactly
equal to `m` (same shape, same values — what `torch.equal` tests),
`set_history h m` raises a configuration error (the `RuntimeError`
"train h and train m cannot be equal", or the `ValueError`
"history_h must be a 1D tensor" when the tensors are not 1-D) and stores no
new history: the history and state buffers are unchanged. -/
theorem c7_equal_history_rejected (model : BaseHysteresis) (h m : PyTensor)
    (hsh : h.shape = m.shape) (hdata : h.data = m.data) :
    ((model.set_history h (some m)).2 = some HystError.rt_trainEqual ∨
      (model.set_history h (some m)).2 = some HystError.ve_historyH1D) ∧
    (model.set_history h (some m)).1._history_h = model._history_h ∧
    (model.set_history h (some m)).1._history_m = model._history_m ∧
    (model.set_history h (some m)).1._states = model._states := by
  unfold BaseHysteresis.set_history
  by_cases h1 : h.shape.length = 1
  · have hbc : (decide (h.shape = m.shape) && decide (h.data = m.data)) =
        true := by rw [hsh, hdata]; simp
    have hmc : BaseHysteresis.set_history_m_check h (some m) =
        some HystError.rt_trainEqual := by
      show (if h.shape.length ≠ 1 then some HystError.ve_historyM1D
          else if (decide (h.shape = m.shape) && decide (h.data = m.data)) =
              true then some HystError.rt_trainEqual
            else none) =
        some HystError.rt_trainEqual
      rw [if_neg (not_not_intro h1), if_pos hbc]
    rw [if_neg (not_not_intro h1), hmc]
    refine ⟨Or.inl rfl, ?_, ?_, ?_⟩ <;>
      (split <;>
        first
          | (split <;> rfl)
          | (rename_i heq; simp at heq))
  · rw [if_pos h1]
    refine ⟨Or.inr rfl, ?_, ?_, ?_⟩ <;> (split <;> rfl)

/-- Witness for C7: a concrete trainable model and the concrete equal pair
`h = m = tensor([0, 1])`. -/
theorem c7_equal_history_rejected_witness :
    ((modelW0.set_history ⟨[2], [0, 1]⟩ (some ⟨[2], [0, 1]⟩)).2 =
        some HystError.rt_trainEqual ∨
      (modelW0.set_history ⟨[2], [0, 1]⟩ (some ⟨[2], [0, 1]⟩)).2 =
        some HystError.ve_historyH1D) ∧
    (modelW0.set_history ⟨[2], [0, 1]⟩ (some ⟨[2], [0, 1]⟩)).1._history_h =
      modelW0._history_h ∧
    (modelW0.set_history ⟨[2], [0, 1]⟩ (some ⟨[2], [0, 1]⟩)).1._history_m =
      modelW0._history_m ∧
    (modelW0.set_history ⟨[2], [0, 1]⟩ (some ⟨[2], [0, 1]⟩)).1._states =
      modelW0._states :=
  c7_equal_history_rejected modelW0 ⟨[2], [0, 1]⟩ ⟨[2], [0, 1]⟩ rfl rfl

/-- C9: for every successful `set_history(h)` call without a supplied `m`,
the mode after the call equals the mode before the call — the temporary
switch to REGRESSION used to derive `m` is followed by restoring the prior
mode. -/
theorem c9_mode_restored (model model' : BaseHysteresis) (h : PyTensor)
    (hsucc : model.set_history h none = (model', none)) :
    model'._mode = model._mode := by
  simp only [BaseHysteresis.set_history,
    BaseHysteresis._update_h_history_buffer] at hsucc
  split at hsucc
  · exact absurd (congrArg Prod.snd hsucc) (by simp)
  · split at hsucc
    · exact absurd (congrArg Prod.snd hsucc) (by simp)
    · split at hsucc
      · exact absurd (congrArg Prod.snd hsucc) (by simp)
      · have h1 := congrArg Prod.fst hsucc
        simp only at h1
        rw [← h1]
        split <;> rfl

/-- Witness for C9: `set_history(tensor([0, 1]))` on a fresh trainable model
succeeds and leaves the FITTING mode in place. -/
theorem c9_mode_restored_witness : modelSH._mode = modelW0._mode :=
  c9_mode_restored modelW0 modelSH ⟨[2], [0, 1]⟩ (by with_unfolding_all rfl)

/-- C1: for every model with history set in FITTING mode (matching-shape,
non-empty history buffers), a `forward` call with an in-domain input that is
not `allclose` to the stored untransformed history raises the
mode-consistency error "must do regression on history fields if in FITTING
mode", while an input equal to the stored untransformed history returns the
prediction computed from the cached state matrix and the cached normalized
history. -/
theorem c1_fitting_consistency (model : BaseHysteresis) (hh : List ℚ)
    (st : List (List ℚ)) (hm : PyTensor)
    (hmode : model._mode = Mode.FITTING)
    (hhist : model._history_h = some hh)
    (hst : model._states = some st)
    (hmset : model._history_m = some hm)
    (hshape : hm.shape = [hh.length])
    (hne : hh ≠ []) (hsne : st ≠ []) :
    (∀ x : PyTensor,
        model._check_inside_valid_domain x.data = Except.ok () →
        torch_allclose x.data (model.transformer.untransform_h hh) = false →
        model.forward (some x) false =
          Except.error HystError.he_fittingMismatch) ∧
    (model._check_inside_valid_domain (model.transformer.untransform_h hh) =
        Except.ok () →
      ∀ sh : List Nat,
        model.forward (some ⟨sh, model.transformer.untransform_h hh⟩) false =
          Except.ok (model._predict_normalized_magnetization st hh)) := by
  obtain ⟨f, hf⟩ := Option.isSome_iff_exists.mp (List.getLast?_isSome.mpr hne)
  obtain ⟨s, hs⟩ := Option.isSome_iff_exists.mp (List.getLast?_isSome.mpr hsne)
  have hcur : model.currentStateField = Except.ok (some (s, f)) := by
    simp only [BaseHysteresis.currentStateField, hhist, hst, hs, hf]
  constructor
  · intro x hchk hall
    simp only [BaseHysteresis.forward, BaseHysteresis.forward_dispatch, hchk,
      hcur, hmode, hhist, hmset, hshape, hall, ne_eq, not_true_eq_false,
      not_false_eq_true, Bool.false_eq_true, ite_true, ite_false, if_false,
      if_true]
  · intro hchk sh
    simp only [BaseHysteresis.forward, BaseHysteresis.forward_dispatch, hchk,
      hcur, hmode, hhist, hmset, hst, hshape, torch_allclose_refl, ne_eq,
      not_true_eq_false, not_false_eq_true, Bool.true_eq_false, ite_true,
      ite_false, if_false, if_true]
    rfl

/-- Witness for C1 at the concrete trained model `modelHist` (history
`[0, 1]`, domain `[0, 1]`): the mismatching input `[0, 3/4]` errors, the
stored untransformed history succeeds. -/
theorem c1_fitting_consistency_witness :
    modelHist.forward (some ⟨[2], [0, 3 / 4]⟩) false =
      Except.error HystError.he_fittingMismatch ∧
    modelHist.forward
        (some ⟨[2], modelHist.transformer.untransform_h histN⟩) false =
      Except.ok
        (modelHist._predict_normalized_magnetization statesHist histN) := by
  have h := c1_fitting_consistency modelHist histN statesHist
    ⟨[2], [0, 1 / 2]⟩ (by with_unfolding_all rfl) (by with_unfolding_all rfl)
    (by with_unfolding_all rfl) (by with_unfolding_all rfl)
    (by with_unfolding_all rfl) (by with_unfolding_all decide)
    (by with_unfolding_all decide)
  exact ⟨h.1 ⟨[2], [0, 3 / 4]⟩ (by with_unfolding_all rfl)
      (by with_unfolding_all rfl),
    h.2 (by with_unfolding_all rfl) [2]⟩

/-- C5 counterexample: on the concrete model `modelHist` (history set),
`reset_history` succeeds but the cached state matrix `_states` is still
present afterwards — the claim that it is discarded is false on the code
(base.py:344-346 deletes only `_history_h` and `_history_m`). -/
theorem c5_counterexample :
    modelHist._history_h.isSome = true ∧
    (modelHist.reset_history).2 = none ∧
    (modelHist.reset_history).1._states.isSome = true := by
  refine ⟨?_, ?_, ?_⟩ <;> with_unfolding_all rfl

/-- C5 (amended): for every model with both history buffers set,
`reset_history` succeeds, discards the stored field and magnetization
histories (the cached state matrix buffer stays in place), and afterwards
every `forward` call in CURRENT mode — without an input, or with any
in-domain input — raises the mode-consistency error "no history data to
determine current state". -/
theorem c5_reset_history (model : BaseHysteresis) (hh : List ℚ)
    (hm : PyTensor) (h1 : model._history_h = some hh)
    (h2 : model._history_m = some hm) :
    (model.reset_history).2 = none ∧
    (model.reset_history).1._history_h = none ∧
    (model.reset_history).1._history_m = none ∧
    (model.reset_history).1._states = model._states ∧
    (∀ rr : Bool,
        ({ (model.reset_history).1 with _mode := Mode.CURRENT }).forward none
            rr =
          Except.error HystError.he_noCurrentState) ∧
    (∀ (rr : Bool) (xt : PyTensor),
        ({ (model.reset_history).1 with _mode := Mode.CURRENT
              })._check_inside_valid_domain xt.data = Except.ok () →
        ({ (model.reset_history).1 with _mode := Mode.CURRENT }).forward
            (some xt) rr =
          Except.error HystError.he_noCurrentState) := by
  have hres : model.reset_history =
      ({ model with _history_h := none, _history_m := none }, none) := by
    simp only [BaseHysteresis.reset_history, h1, h2]
  refine ⟨by rw [hres], by rw [hres], by rw [hres], by rw [hres], ?_, ?_⟩
  · intro rr
    rw [hres]
    simp [BaseHysteresis.forward, BaseHysteresis.forward_dispatch,
      BaseHysteresis.currentStateField]
  · intro rr xt hchk
    rw [hres] at hchk ⊢
    simp only [BaseHysteresis.forward, BaseHysteresis.forward_dispatch,
      BaseHysteresis.currentStateField, hchk]

/-- Witness for C5 (amended) at the concrete model `modelHist`. -/
theorem c5_reset_history_witness :
    (modelHist.reset_history).2 = none ∧
    (modelHist.reset_history).1._history_h = none ∧
    (modelHist.reset_history).1._history_m = none ∧
    (modelHist.reset_history).1._states = modelHist._states ∧
    (∀ rr : Bool,
        ({ (modelHist.reset_history).1 with _mode := Mode.CURRENT }).forward
            none rr =
          Except.error HystError.he_noCurrentState) ∧
    (∀ (rr : Bool) (xt : PyTensor),
        ({ (modelHist.reset_history).1 with _mode := Mode.CURRENT
              })._check_inside_valid_domain xt.data = Except.ok () →
        ({ (modelHist.reset_history).1 with _mode := Mode.CURRENT }).forward
            (some xt) rr =
          Except.error HystError.he_noCurrentState) :=
  c5_reset_history modelHist histN ⟨[2], [0, 1 / 2]⟩
    (by with_unfolding_all rfl) (by with_unfolding_all rfl)

/-- C6 counterexample: the concrete model `modelFUT` is in FUTURE mode with
no history set, yet `forward` on a 1-D in-domain input succeeds — the claim
that a FUTURE-mode call with no history fails is false on the code
(base.py:294-306 never checks for history, and the error messages at
base.py:261-263 and 286-290 even recommend FUTURE mode when no history
exists). -/
theorem c6_counterexample :
    modelFUT._mode = Mode.FUTURE ∧
    modelFUT._history_h = none ∧
    (modelFUT.forward (some ⟨[2], [1 / 2, 3 / 4]⟩) false).toOption.isSome =
      true := by
  refine ⟨?_, ?_, ?_⟩ <;> with_unfolding_all rfl

/-- C6 (amended): in FUTURE mode a non-1-D in-domain input raises the error
"input must be 1D for FUTURE mode" (whenever the current-state lookup
succeeds, which holds for every reachable model); with no history set a 1-D
in-domain input does not fail: it returns the prediction computed from the
saturation-start state matrix over the normalized input. -/
theorem c6_future_mode (model : BaseHysteresis) (xt : PyTensor)
    (hmode : model._mode = Mode.FUTURE) :
    ((∃ cur, model.currentStateField = Except.ok cur) →
        model._check_inside_valid_domain xt.data = Except.ok () →
        xt.shape.length ≠ 1 →
        model.forward (some xt) false = Except.error HystError.ve_future1D) ∧
    (model._history_h = none →
        model._check_inside_valid_domain xt.data = Except.ok () →
        xt.shape.length = 1 →
        model.forward (some xt) false =
          Except.ok (model._predict_normalized_magnetization
            (get_states (model.transformer.transform_h xt.data)
              model.mesh_points model.temp none none)
            (model.transformer.transform_h xt.data))) := by
  constructor
  · intro hcur hchk hdim
    obtain ⟨cur, hcur⟩ := hcur
    simp only [BaseHysteresis.forward, BaseHysteresis.forward_dispatch, hchk,
      hcur, hmode, hdim, ne_eq, not_false_eq_true, ite_true, if_true]
  · intro hhist hchk hdim
    simp only [BaseHysteresis.forward, BaseHysteresis.forward_dispatch, hchk,
      BaseHysteresis.currentStateField, hhist, hmode, hdim, ne_eq,
      not_true_eq_false, ite_false, if_false, Option.map_none]
    rfl

/-- Witness for C6 (amended) at the concrete no-history FUTURE-mode model
`modelFUT`: a 2-D input errors, a 1-D input succeeds with the
saturation-start prediction. -/
theorem c6_future_mode_witness :
    modelFUT.forward (some ⟨[2, 1], [1 / 2, 3 / 4]⟩) false =
      Except.error HystError.ve_future1D ∧
    modelFUT.forward (some ⟨[2], [1 / 2, 3 / 4]⟩) false =
      Except.ok (modelFUT._predict_normalized_magnetization
        (get_states (modelFUT.transformer.transform_h [1 / 2, 3 / 4])
          modelFUT.mesh_points modelFUT.temp none none)
        (modelFUT.transformer.transform_h [1 / 2, 3 / 4])) := by
  constructor
  · exact (c6_future_mode modelFUT ⟨[2, 1], [1 / 2, 3 / 4]⟩
      (by with_unfolding_all rfl)).1 ⟨none, by with_unfolding_all rfl⟩
      (by with_unfolding_all rfl) (by decide)
  · exact (c6_future_mode modelFUT ⟨[2], [1 / 2, 3 / 4]⟩
      (by with_unfolding_all rfl)).2 (by with_unfolding_all rfl)
      (by with_unfolding_all rfl) rfl

/-- C8: the claim is right and the code is wrong.  `set_history` with the
1-D field history `hC8` and the 2-D magnetization history `mC8`
(shape `[2, 1]`) raises no error and stores the 2-D tensor: base.py:193
re-checks `history_h.shape` where its own error message says
"history_m must be a 1D tensor", so a non-1-D `m` is never rejected.
(`modelNT` is non-trainable, so the transformer-rebuild path of
base.py:177-184 is not even entered.) -/
theorem c8_history_m_dim_check :
    mC8.shape.length ≠ 1 ∧
    (modelNT.set_history hC8 (some mC8)).2 = none ∧
    (modelNT.set_history hC8 (some mC8)).1._history_m = some mC8 := by
  refine ⟨by decide, ?_, ?_⟩ <;> with_unfolding_all rfl

/-- C4: after every successful `set_history` or `apply_field` call, the
cached state matrix is the full recomputation from the complete normalized
field history and has shape (n, |mesh|) where n is the history length; in
particular, `apply_field` with a single value on a model with no prior
history yields a 1-element history and a state matrix of shape
(1, |mesh|). -/
theorem c4_states_recomputed (model model' : BaseHysteresis) (h : PyTensor)
    (m : Option PyTensor) (v : ℚ) :
    (model.set_history h m = (model', none) → statesFullyRecomputed model') ∧
    (model.apply_field h = (model', none) → statesFullyRecomputed model') ∧
    (model._history_h = none →
      model.apply_field ⟨[1], [v]⟩ = (model', none) →
      ∃ nh st, model'._history_h = some nh ∧ nh.length = 1 ∧
        model'._states = some st ∧ st.length = 1 ∧
        ∀ row ∈ st, row.length = model'.mesh_points.length) := by
  have hmk : ∀ (m2 : BaseHysteresis) (nh : List ℚ),
      m2._history_h = some nh →
      m2._states = some (get_states nh m2.mesh_points m2.temp none none) →
      statesFullyRecomputed m2 :=
    fun m2 nh e1 e2 =>
      ⟨nh, e1, e2, get_states_length nh m2.mesh_points m2.temp,
        get_states_row_length nh m2.mesh_points m2.temp⟩
  refine ⟨?_, ?_, ?_⟩
  · intro hset
    simp only [BaseHysteresis.set_history] at hset
    split at hset
    all_goals try split at hset
    all_goals try split at hset
    all_goals try split at hset
    all_goals try split at hset
    all_goals injection hset with h1 h2
    all_goals
      first
        | exact Option.noConfusion h2
        | (rw [← h1]; exact hmk _ _ rfl rfl)
  · intro happ
    unfold BaseHysteresis.apply_field at happ
    split at happ
    · exact absurd (congrArg Prod.snd happ) (by simp)
    · have h1 := congrArg Prod.fst happ
      simp only at h1
      rw [← h1]
      exact hmk _ _ rfl rfl
  · intro hnone happ
    unfold BaseHysteresis.apply_field at happ
    split at happ
    · exact absurd (congrArg Prod.snd happ) (by simp)
    · rw [hnone] at happ
      have h1 := congrArg Prod.fst happ
      simp only at h1
      rw [← h1]
      refine ⟨model.transformer.transform_h [v],
        get_states (model.transformer.transform_h [v]) model.mesh_points
          model.temp none none, ?_, ?_, ?_, ?_, ?_⟩
      · rfl
      · simp [HysteresisTransform.transform_h]
      · rfl
      · rw [get_states_length]
        simp [HysteresisTransform.transform_h]
      · exact get_states_row_length _ _ _

/-- Witness for C4: `apply_field(0.5)` on the fresh no-history model
`modelW0` yields a 1-element history and a `(1, |mesh|)` state matrix. -/
theorem c4_states_recomputed_witness :
    ∃ nh st, modelAF._history_h = some nh ∧ nh.length = 1 ∧
      modelAF._states = some st ∧ st.length = 1 ∧
      ∀ row ∈ st, row.length = modelAF.mesh_points.length :=
  (c4_states_recomputed modelW0 modelAF ⟨[1], [1 / 2]⟩ none (1 / 2)).2.2
    (by with_unfolding_all rfl) (by with_unfolding_all rfl)

/-- C2: in every mode, when `forward` succeeds its normalized magnetization
satisfies, elementwise,
`r i = scale * (Σ_j density_j * states i j / Σ_j density_j) + offset +
slope * h i`, where `(states, h)` is the mode-dependent state matrix and
normalized field vector produced by the dispatch step of `forward`. -/
theorem c2_magnetization_formula (model : BaseHysteresis)
    (x : Option PyTensor) (r : List ℚ) (states : List (List ℚ))
    (normH : List ℚ) (hr : model.forward x false = Except.ok r)
    (hd : model.forward_dispatch x = Except.ok (states, normH))
    (hrow : ∀ row ∈ states, row.length = model.hysterion_density.length) :
    r.length = min states.length normH.length ∧
    ∀ i, i < r.length →
      r.getD i 0 =
        model.scale *
            ((∑ j ∈ Finset.range model.hysterion_density.length,
                model.hysterion_density.getD j 0 *
                  (states.getD i []).getD j 0) /
              ∑ j ∈ Finset.range model.hysterion_density.length,
                model.hysterion_density.getD j 0) +
          model.offset + normH.getD i 0 * model.slope := by
  have hreq : r = model._predict_normalized_magnetization states normH := by
    rw [BaseHysteresis.forward, hd] at hr
    simp only [Bool.false_eq_true, if_false, ite_false] at hr
    exact ((Except.ok.injEq _ _).mp hr).symm
  subst hreq
  have hlen : (model._predict_normalized_magnetization states normH).length =
      min states.length normH.length := by
    simp only [BaseHysteresis._predict_normalized_magnetization,
      List.length_zipWith, List.length_map]
  refine ⟨hlen, ?_⟩
  intro i hi
  have hi1 : i < states.length :=
    lt_of_lt_of_le (hlen ▸ hi) (min_le_left _ _)
  have hi2 : i < normH.length :=
    lt_of_lt_of_le (hlen ▸ hi) (min_le_right _ _)
  rw [List.getD_eq_getElem _ _ hi, List.getD_eq_getElem _ _ hi1,
    List.getD_eq_getElem _ _ hi2]
  simp only [BaseHysteresis._predict_normalized_magnetization,
    List.getElem_zipWith, List.getElem_map]
  rw [zipWith_mul_sum_eq model.hysterion_density states[i]
    (hrow _ (List.getElem_mem hi1))]
  simp only [list_sum_eq_range_getD]

/-- Witness for C2 at the concrete REGRESSION-mode evaluation of `modelREG`
on `xC2`; `rC2`/`statesC2`/`normC2` are its output, state matrix and
normalized fields. -/
theorem c2_magnetization_formula_witness :
    rC2.length = min statesC2.length normC2.length ∧
    ∀ i, i < rC2.length →
      rC2.getD i 0 =
        modelREG.scale *
            ((∑ j ∈ Finset.range modelREG.hysterion_density.length,
                modelREG.hysterion_density.getD j 0 *
                  (statesC2.getD i []).getD j 0) /
              ∑ j ∈ Finset.range modelREG.hysterion_density.length,
                modelREG.hysterion_density.getD j 0) +
          modelREG.offset + normC2.getD i 0 * modelREG.slope :=
  c2_magnetization_formula modelREG (some xC2) rC2 statesC2 normC2
    (by with_unfolding_all rfl) (by with_unfolding_all rfl)
    (by with_unfolding_all decide)
